import Mathlib

/-!
Verification development for the beacon-kit Execution Engine Client and
Local Payload Builder slice.

The definitions below are a shallow embedding of the Go source:

* `EngineClient.*` embeds the version-dispatched Engine API operations of
  `mod/execution/pkg/client` (the file containing `NewPayload`,
  `callNewPayloadRPC`, `ForkchoiceUpdated`, `callUpdatedForkchoiceRPC`,
  `GetPayload`).
* `Builder.*` embeds the `PayloadBuilder` request methods
  (`RequestPayloadAsync`, `RequestPayloadSync`, `RetrievePayload`,
  `SendForceHeadFCU`).
* `PayloadAttributes` embeds
  `mod/engine-primitives/pkg/engine-primitives/attributes.go`.

Machine integers (slots, timestamps) are modelled as `Nat`; 32-byte roots
and hashes as `Nat` (the zero hash is `0`); Go's `(value, error)` returns
as pairs with `Option` components, and Go `nil` pointers as `none`.
External effects (the RPC transport, the execution-engine peer, the
chain-state reader) are passed in as explicit parameters, and every
operation additionally returns the list of requests it sent to the peer so
that "performs no network call" is a statement about that list.
-/

namespace BeaconKit

/-- Slots are `math.Slot` (uint64). -/
abbrev Slot := Nat

/-- 32-byte beacon roots (`primitives.Root`), modelled as `Nat`. -/
abbrev Root := Nat

/-- 32-byte execution block hashes (`common.ExecutionHash`); `0` is the
zero hash. -/
abbrev ExecutionHash := Nat

/-- 20-byte execution addresses (`common.ExecutionAddress`); `0` is the
zero address. -/
abbrev ExecutionAddress := Nat

/-- 8-byte payload identifiers (`engineprimitives.PayloadID`). -/
abbrev PayloadID := Nat

/-- 32-byte values (`primitives.Bytes32`); `0` is the zero value. -/
abbrev Bytes32 := Nat

/-- Modelled from the spec: the fork-version constants of the
`primitives/pkg/version` package, which is not part of the visible slice.
Only their ordering (Capella before Deneb before Electra) and mutual
distinctness matter to the code under study. -/
def Version.capella : Nat := 3

/-- Modelled from the spec: the Deneb fork version, the single version the
visible engine client supports. -/
def Version.deneb : Nat := 4

/-- Modelled from the spec: the Electra fork version, present in the
dispatch switches only as a not-yet-implemented arm. -/
def Version.electra : Nat := 5

/-- The typed errors surfaced by the engine client and payload builder.
Each constructor embeds one named Go error value; `todoElectra*` embed the
ad-hoc `errors.New("TODO: implement Electra ...")` values, `wrapped`
embeds an `errors.Newf("%w ...", err)` wrapping, and `anon` stands for an
otherwise-opaque error carried through unchanged. -/
inductive Err where
  | payloadBuilderDisabled
  | nilPayloadID
  | payloadIDNotFound
  | nilPayloadEnvelope
  | nilExecutionPayloadEnvelope
  | invalidPayloadType
  | invalidPayloadAttributes
  | invalidGetPayloadVersion
  | nilBlobsBundle
  | nilForkchoiceResponse
  | nilPayloadStatus
  | acceptedPayloadStatus
  | syncingPayloadStatus
  | invalidPayloadStatus
  | undefinedPayloadStatus
  | invalidTimestamp
  | emptyPrevRandao
  | nilWithdrawals
  | ctxCanceled
  | todoElectraPayload
  | todoElectraForkchoice
  | todoElectraGetPayload
  | wrapped : Err → Err
  | anon : Nat → Err
  deriving DecidableEq, Repr

/-- The payload-validity status enum of `engineprimitives.PayloadStatusV1`;
`unknown` stands for any unrecognized wire value. -/
inductive PayloadStatus where
  | valid
  | invalid
  | syncing
  | accepted
  | unknown : Nat → PayloadStatus
  deriving DecidableEq, Repr

/-- `engineprimitives.PayloadStatusV1`: status plus optional
latest-valid-hash and optional validation-error text. -/
structure PayloadStatusV1 where
  status : PayloadStatus
  latestValidHash : Option ExecutionHash
  validationError : Option String
  deriving DecidableEq, Repr

/-- `engineprimitives.ForkchoiceStateV1`. -/
structure ForkchoiceStateV1 where
  headBlockHash : ExecutionHash
  safeBlockHash : ExecutionHash
  finalizedBlockHash : ExecutionHash
  deriving DecidableEq, Repr

/-- A blobs bundle, reduced to the data the visible code inspects (the
list of blobs). -/
structure BlobsBundle where
  blobs : List Nat
  deriving DecidableEq, Repr

/-- The execution payload, reduced to the getters the visible code calls
(`GetFeeRecipient`, `GetBlockHash`, `GetParentHash`). -/
structure ExecutionPayload where
  feeRecipient : ExecutionAddress
  blockHash : ExecutionHash
  parentHash : ExecutionHash
  deriving DecidableEq, Repr

/-- `engineprimitives.BuiltExecutionPayloadEnv`: the result of redeeming a
payload ID. `payload = none` models `GetExecutionPayload().IsNil()`. -/
structure Envelope where
  payload : Option ExecutionPayload
  blobsBundle : Option BlobsBundle
  shouldOverrideBuilder : Bool
  deriving DecidableEq, Repr

/-- `engineprimitives.ForkchoiceResponseV1`: the decoded response of
`engine_forkchoiceUpdatedVX`. -/
structure ForkchoiceResponseV1 where
  payloadStatus : PayloadStatusV1
  payloadID : Option PayloadID
  deriving DecidableEq, Repr

/-- Modelled from the spec: the Status Classifier
(`processPayloadStatusResult`), whose definition is not part of the
visible slice (only its call sites are). Per §4.1 and the §8 scenarios:
Valid yields the latest valid hash and no error; Accepted and Syncing
yield the optional hash together with their distinguished soft failures;
Invalid yields the hash together with the hard invalid failure; any
unrecognized status yields the undefined-status failure. -/
def processPayloadStatusResult (r : PayloadStatusV1) :
    Option ExecutionHash × Option Err :=
  match r.status with
  | .valid => (r.latestValidHash, none)
  | .accepted => (r.latestValidHash, some .acceptedPayloadStatus)
  | .syncing => (r.latestValidHash, some .syncingPayloadStatus)
  | .invalid => (r.latestValidHash, some .invalidPayloadStatus)
  | .unknown _ => (none, some .undefinedPayloadStatus)

/-- Modelled from the spec: `handleRPCError`, not part of the visible
slice. Per §7, transport/RPC errors are "surfaced verbatim with
peer-supplied detail preserved", so it is the identity on the error. -/
def handleRPCError (e : Err) : Err := e

namespace EngineClient

/-- The outcome of one raw transport invocation of `NewPayloadV3`: the
decoded status (Go `*PayloadStatusV1`, nil as `none`) and the Go error. -/
abbrev NewPayloadWire := Option PayloadStatusV1 × Option Err

/-- The outcome of one raw transport invocation of `ForkchoiceUpdatedV3`. -/
abbrev ForkchoiceWire := Option ForkchoiceResponseV1 × Option Err

/-- The outcome of one raw transport invocation of `GetPayloadV3`. -/
abbrev GetPayloadWire := Option Envelope × Option Err

/-- `callNewPayloadRPC`: dispatches on the payload's fork version. Deneb
invokes the `NewPayloadV3` transport (its outcome is the parameter
`npv3`); Electra fails with the TODO error; every other version fails
with `ErrInvalidPayloadType`. The second component counts transport
invocations. -/
def callNewPayloadRPC (payloadVersion : Nat) (npv3 : NewPayloadWire) :
    NewPayloadWire × Nat :=
  if payloadVersion = Version.deneb then (npv3, 1)
  else if payloadVersion = Version.electra then
    ((none, some .todoElectraPayload), 0)
  else ((none, some .invalidPayloadType), 0)

/-- `NewPayload`: calls `callNewPayloadRPC`; propagates its error; fails
with `ErrNilPayloadStatus` on a nil result; otherwise applies
`processPayloadStatusResult`. Returns Go's `(*ExecutionHash, error)` pair
plus the transport-invocation count. -/
def newPayload (payloadVersion : Nat) (npv3 : NewPayloadWire) :
    (Option ExecutionHash × Option Err) × Nat :=
  match callNewPayloadRPC payloadVersion npv3 with
  | ((_, some e), n) => ((none, some e), n)
  | ((none, none), n) => ((none, some .nilPayloadStatus), n)
  | ((some r, none), n) => (processPayloadStatusResult r, n)

/-- `callUpdatedForkchoiceRPC`: dispatches on the fork version. Deneb
invokes the `ForkchoiceUpdatedV3` transport (outcome `fcuv3`); Electra
fails with the TODO error; every other version fails with
`ErrInvalidPayloadAttributes`. -/
def callUpdatedForkchoiceRPC (forkVersion : Nat) (fcuv3 : ForkchoiceWire) :
    ForkchoiceWire × Nat :=
  if forkVersion = Version.deneb then (fcuv3, 1)
  else if forkVersion = Version.electra then
    ((none, some .todoElectraForkchoice), 0)
  else ((none, some .invalidPayloadAttributes), 0)

/-- `ForkchoiceUpdated`: calls `callUpdatedForkchoiceRPC`; on error
returns `handleRPCError` of it; fails with `ErrNilForkchoiceResponse` on
a nil response; otherwise classifies the embedded payload status,
returning the latest valid hash alongside any classification error, and
on success also the optional payload ID. Returns Go's
`(*PayloadID, *ExecutionHash, error)` triple plus the
transport-invocation count. -/
def forkchoiceUpdated (forkVersion : Nat) (fcuv3 : ForkchoiceWire) :
    (Option PayloadID × Option ExecutionHash × Option Err) × Nat :=
  match callUpdatedForkchoiceRPC forkVersion fcuv3 with
  | ((_, some e), n) => ((none, none, some (handleRPCError e)), n)
  | ((none, none), n) => ((none, none, some .nilForkchoiceResponse), n)
  | ((some r, none), n) =>
    match processPayloadStatusResult r.payloadStatus with
    | (lvh, some e) => ((none, lvh, some e), n)
    | (lvh, none) => ((r.payloadID, lvh, none), n)

/-- `GetPayload`: dispatches on the fork version (Deneb invokes the
`GetPayloadV3` transport, outcome `gpv3`; Electra fails with the TODO
error; anything else with `ErrInvalidGetPayloadVersion`); then propagates
transport errors through `handleRPCError`, fails with
`ErrNilExecutionPayloadEnvelope` on a nil result, and with
`ErrNilBlobsBundle` when the fork version is at least Deneb and the
returned envelope has no blobs bundle; otherwise returns the envelope. -/
def getPayload (forkVersion : Nat) (gpv3 : GetPayloadWire) :
    (Option Envelope × Option Err) × Nat :=
  if forkVersion = Version.deneb then
    match gpv3 with
    | (result, some e) => ((result, some (handleRPCError e)), 1)
    | (none, none) => ((none, some .nilExecutionPayloadEnvelope), 1)
    | (some result, none) =>
      if result.blobsBundle = none ∧ Version.deneb ≤ forkVersion then
        ((some result, some .nilBlobsBundle), 1)
      else ((some result, none), 1)
  else if forkVersion = Version.electra then
    ((none, some .todoElectraGetPayload), 0)
  else ((none, some .invalidGetPayloadVersion), 0)

end EngineClient

/-- `engineprimitives.PayloadAttributes`: the parameters of a build
request. Withdrawals are a Go slice whose nilness is significant, so they
are an `Option` of a list (individual withdrawals reduced to `Nat`). -/
structure PayloadAttributes where
  version : Nat
  timestamp : Nat
  prevRandao : Bytes32
  suggestedFeeRecipient : ExecutionAddress
  withdrawals : Option (List Nat)
  parentBeaconBlockRoot : Root
  deriving DecidableEq, Repr

namespace PayloadAttributes

/-- `Validate`: rejects a zero timestamp, a zero prev-randao, and nil
withdrawals at versions from Capella on; the parent-beacon-block-root
check is commented out in the source. Returns Go's `error` (`none` is
nil). -/
def Validate (p : PayloadAttributes) : Option Err :=
  if p.timestamp = 0 then some .invalidTimestamp
  else if p.prevRandao = 0 then some .emptyPrevRandao
  else if p.withdrawals = none ∧ Version.capella ≤ p.version then
    some .nilWithdrawals
  else none

end PayloadAttributes

/-- `NewPayloadAttributes`: constructs the attributes and validates them,
returning the validated value or the validation error. -/
def NewPayloadAttributes (forkVersion timestamp : Nat) (prevRandao : Bytes32)
    (suggestedFeeRecipient : ExecutionAddress)
    (withdrawals : Option (List Nat)) (parentBeaconBlockRoot : Root) :
    Except Err PayloadAttributes :=
  let p : PayloadAttributes :=
    { version := forkVersion
      timestamp := timestamp
      prevRandao := prevRandao
      suggestedFeeRecipient := suggestedFeeRecipient
      withdrawals := withdrawals
      parentBeaconBlockRoot := parentBeaconBlockRoot }
  match p.Validate with
  | some e => .error e
  | none => .ok p

/-- `engineprimitives.ForkchoiceUpdateRequest`: what the builder hands to
`NotifyForkchoiceUpdate`. -/
structure ForkchoiceUpdateRequest where
  state : ForkchoiceStateV1
  payloadAttributes : Option PayloadAttributes
  forkVersion : Nat
  deriving DecidableEq, Repr

/-- `engineprimitives.GetPayloadRequest`. -/
structure GetPayloadRequest where
  payloadID : PayloadID
  forkVersion : Nat
  deriving DecidableEq, Repr

/-- The latest execution payload header as read from chain state, reduced
to the getters `SendForceHeadFCU` calls. -/
structure ExecutionPayloadHeader where
  blockHash : ExecutionHash
  parentHash : ExecutionHash
  deriving DecidableEq, Repr

namespace Builder

/-- Modelled from the spec: the payload-ID cache (`pb.pc`), whose
implementation is not part of the visible slice. Per §3 it is a mapping
from (slot, parent-block-root) to PayloadID with insert (`Set`) and
lookup (`Get`); the eviction policy is irrelevant to the visible call
sites. Modelled as an association list where `Set` prepends
(last-writer-wins). -/
abbrev Cache := List ((Slot × Root) × PayloadID)

/-- Modelled from the spec: cache lookup `pb.pc.Get(slot, root)`. -/
def cacheGet (c : Cache) (slot : Slot) (root : Root) : Option PayloadID :=
  match c with
  | [] => none
  | (k, v) :: rest =>
    if k = (slot, root) then some v else cacheGet rest slot root

/-- Modelled from the spec: cache insert `pb.pc.Set(slot, root, pid)`. -/
def cacheSet (c : Cache) (slot : Slot) (root : Root) (pid : PayloadID) :
    Cache :=
  ((slot, root), pid) :: c

/-- The execution-engine collaborator (`pb.ee`) as a deterministic oracle:
`notifyForkchoiceUpdate` returns Go's `(*PayloadID, *ExecutionHash,
error)` triple and `getPayload` Go's `(envelope, error)` pair. -/
structure Engine where
  notifyForkchoiceUpdate :
    ForkchoiceUpdateRequest → Option PayloadID × Option ExecutionHash × Option Err
  getPayload : GetPayloadRequest → Option Envelope × Option Err

/-- The builder's configuration and collaborators other than the engine:
`Enabled()` (modelled from the spec as a boolean switch, its definition
is not in the visible slice), `pb.cfg.PayloadTimeout` (in abstract time
units), `pb.cfg.SuggestedFeeRecipient`, and
`pb.chainSpec.ActiveForkVersionForSlot`. -/
structure Config where
  enabled : Bool
  payloadTimeout : Nat
  suggestedFeeRecipient : ExecutionAddress
  activeForkVersionForSlot : Slot → Nat

/-- The observable outcome of `RequestPayloadAsync`: Go's
`(*PayloadID, error)` pair, the cache after the call, and the requests
sent to the execution peer. -/
structure AsyncOut where
  payloadID : Option PayloadID
  err : Option Err
  cache : Cache
  fcuReqs : List ForkchoiceUpdateRequest
  deriving Repr

/-- `RequestPayloadAsync`: fails immediately when the builder is
disabled; returns the cached payload ID on a cache hit without touching
the peer; otherwise assembles payload attributes (`getPayloadAttribute`
is an external collaborator, so the outcome for this call's arguments is
the parameter `attrsRes`, and its error is wrapped), sends a forkchoice
update whose head is `headEth1BlockHash` and whose safe and finalized
hashes are both `finalEth1BlockHash`, and caches the returned payload ID
when it is non-nil. -/
def requestPayloadAsync (cfg : Config) (eng : Engine) (cache : Cache)
    (attrsRes : Except Err PayloadAttributes) (slot : Slot)
    (parentBlockRoot : Root)
    (headEth1BlockHash finalEth1BlockHash : ExecutionHash) : AsyncOut :=
  if !cfg.enabled then
    ⟨none, some .payloadBuilderDisabled, cache, []⟩
  else
    match cacheGet cache slot parentBlockRoot with
    | some payloadID => ⟨some payloadID, none, cache, []⟩
    | none =>
      match attrsRes with
      | .error e => ⟨none, some (.wrapped e), cache, []⟩
      | .ok attrs =>
        let req : ForkchoiceUpdateRequest :=
          { state :=
              { headBlockHash := headEth1BlockHash
                safeBlockHash := finalEth1BlockHash
                finalizedBlockHash := finalEth1BlockHash }
            payloadAttributes := some attrs
            forkVersion := cfg.activeForkVersionForSlot slot }
        match eng.notifyForkchoiceUpdate req with
        | (_, _, some e) => ⟨none, some e, cache, [req]⟩
        | (some payloadID, _, none) =>
          ⟨some payloadID, none,
            cacheSet cache slot parentBlockRoot payloadID, [req]⟩
        | (none, _, none) => ⟨none, none, cache, [req]⟩

/-- The observable outcome of `RequestPayloadSync` and `RetrievePayload`:
Go's `(envelope, error)` pair, the cache after the call, and the requests
sent to the execution peer. -/
structure SyncOut where
  env : Option Envelope
  err : Option Err
  cache : Cache
  fcuReqs : List ForkchoiceUpdateRequest
  getpReqs : List GetPayloadRequest
  deriving Repr

/-- `RequestPayloadSync`: fails immediately when the builder is disabled;
calls `RequestPayloadAsync`, propagating its error and failing with
`ErrNilPayloadID` on a nil payload ID; then races the fixed
`PayloadTimeout` settle timer against the caller's cancellation
(`cancelAt` is the instant the caller's context is cancelled, `none` if
never; a cancellation strictly before the timer wins the `select` and is
propagated as `ctx.Err()`); finally redeems the payload ID with
`GetPayload` and returns its result verbatim. -/
def requestPayloadSync (cfg : Config) (eng : Engine) (cache : Cache)
    (attrsRes : Except Err PayloadAttributes) (slot : Slot)
    (parentBlockRoot : Root)
    (parentEth1Hash finalBlockHash : ExecutionHash)
    (cancelAt : Option Nat) : SyncOut :=
  if !cfg.enabled then
    ⟨none, some .payloadBuilderDisabled, cache, [], []⟩
  else
    let a := requestPayloadAsync cfg eng cache attrsRes slot
      parentBlockRoot parentEth1Hash finalBlockHash
    match a.err, a.payloadID with
    | some e, _ => ⟨none, some e, a.cache, a.fcuReqs, []⟩
    | none, none => ⟨none, some .nilPayloadID, a.cache, a.fcuReqs, []⟩
    | none, some payloadID =>
      let canceled : Bool := match cancelAt with
        | some t => decide (t < cfg.payloadTimeout)
        | none => false
      if canceled then
        ⟨none, some .ctxCanceled, a.cache, a.fcuReqs, []⟩
      else
        let req : GetPayloadRequest :=
          { payloadID := payloadID
            forkVersion := cfg.activeForkVersionForSlot slot }
        let r := eng.getPayload req
        ⟨r.1, r.2, a.cache, a.fcuReqs, [req]⟩

/-- `RetrievePayload`: fails immediately when the builder is disabled;
looks the key up in the cache, failing with `ErrPayloadIDNotFound` on a
miss without contacting the peer and without triggering a build; on a
hit redeems the cached payload ID with `GetPayload`, propagating its
error and failing with `ErrNilPayloadEnvelope` on a nil envelope; the
fee-recipient comparison against `cfg.SuggestedFeeRecipient` only logs a
warning and does not change the result. -/
def retrievePayload (cfg : Config) (eng : Engine) (cache : Cache)
    (slot : Slot) (parentBlockRoot : Root) : SyncOut :=
  if !cfg.enabled then
    ⟨none, some .payloadBuilderDisabled, cache, [], []⟩
  else
    match cacheGet cache slot parentBlockRoot with
    | none => ⟨none, some .payloadIDNotFound, cache, [], []⟩
    | some payloadID =>
      let req : GetPayloadRequest :=
        { payloadID := payloadID
          forkVersion := cfg.activeForkVersionForSlot slot }
      match eng.getPayload req with
      | (_, some e) => ⟨none, some e, cache, [], [req]⟩
      | (none, none) => ⟨none, some .nilPayloadEnvelope, cache, [], [req]⟩
      | (some envelope, none) => ⟨some envelope, none, cache, [], [req]⟩

/-- `SendForceHeadFCU`: reads the latest execution payload header from
chain state (`hdrRes` is the outcome of
`st.GetLatestExecutionPayloadHeader()` for this state), propagating a
read failure; otherwise sends a forkchoice update with head set to the
header's block hash, safe and finalized both set to the header's parent
hash, and no payload attributes, returning the engine's error. The
second component lists the requests sent to the peer. -/
def sendForceHeadFCU (cfg : Config) (eng : Engine)
    (hdrRes : Except Err ExecutionPayloadHeader) (slot : Slot) :
    Option Err × List ForkchoiceUpdateRequest :=
  match hdrRes with
  | .error e => (some e, [])
  | .ok lph =>
    let req : ForkchoiceUpdateRequest :=
      { state :=
          { headBlockHash := lph.blockHash
            safeBlockHash := lph.parentHash
            finalizedBlockHash := lph.parentHash }
        payloadAttributes := none
        forkVersion := cfg.activeForkVersionForSlot slot }
    ((eng.notifyForkchoiceUpdate req).2.2, [req])

end Builder

/-! Concrete fixtures used to instantiate the theorems below on closed
inputs. -/

/-- A valid Deneb payload-attributes value. -/
def wAttrs : PayloadAttributes :=
  { version := Version.deneb
    timestamp := 1
    prevRandao := 1
    suggestedFeeRecipient := 7
    withdrawals := some []
    parentBeaconBlockRoot := 2 }

/-- An enabled builder configuration pinned to the Deneb fork. -/
def wCfg : Builder.Config :=
  { enabled := true
    payloadTimeout := 10
    suggestedFeeRecipient := 7
    activeForkVersionForSlot := fun _ => Version.deneb }

/-- The same configuration with the builder administratively disabled. -/
def wCfgOff : Builder.Config := { wCfg with enabled := false }

/-- An execution-engine oracle that answers every forkchoice update with
payload ID `1` and every get-payload with a complete envelope. -/
def wEng : Builder.Engine :=
  { notifyForkchoiceUpdate := fun _ => (some 1, some 5, none)
    getPayload := fun _ =>
      (some { payload := some { feeRecipient := 7, blockHash := 5, parentHash := 6 }
              blobsBundle := some { blobs := [] }
              shouldOverrideBuilder := false }, none) }

/-- The forkchoice-update request a fresh build with head hash 11 and
final hash 12 sends under `wCfg`. -/
def wReq : ForkchoiceUpdateRequest :=
  { state :=
      { headBlockHash := 11
        safeBlockHash := 12
        finalizedBlockHash := 12 }
    payloadAttributes := some wAttrs
    forkVersion := Version.deneb }

/-! Helper lemmas. -/

/-- Inserting a key into the cache makes it the value looked up for that
key. -/
theorem cacheGet_cacheSet (c : Builder.Cache) (slot : Slot) (root : Root)
    (pid : PayloadID) :
    Builder.cacheGet (Builder.cacheSet c slot root pid) slot root = some pid := by
  simp [Builder.cacheGet, Builder.cacheSet]

/-- When `RequestPayloadAsync` returns a payload ID, the builder was
enabled, the call returned no error, and the returned cache maps the
key to that payload ID. -/
theorem requestPayloadAsync_some (cfg : Builder.Config) (eng : Builder.Engine)
    (cache : Builder.Cache) (attrsRes : Except Err PayloadAttributes)
    (slot : Slot) (root : Root) (head final : ExecutionHash) (pid : PayloadID)
    (h : (Builder.requestPayloadAsync cfg eng cache attrsRes slot root
      head final).payloadID = some pid) :
    cfg.enabled = true ∧
    (Builder.requestPayloadAsync cfg eng cache attrsRes slot root
      head final).err = none ∧
    Builder.cacheGet (Builder.requestPayloadAsync cfg eng cache attrsRes slot
      root head final).cache slot root = some pid := by
  unfold Builder.requestPayloadAsync at h ⊢
  by_cases hen : cfg.enabled
  · simp only [hen, Bool.not_true, Bool.false_eq_true, if_false, ite_false]
    simp only [hen, Bool.not_true, Bool.false_eq_true, if_false, ite_false] at h
    cases hc : Builder.cacheGet cache slot root with
    | some q =>
      simp only [hc] at h ⊢
      exact ⟨trivial, trivial, by simpa [hc] using h⟩
    | none =>
      simp only [hc] at h ⊢
      cases attrsRes with
      | error e => simp at h
      | ok attrs =>
        simp only at h ⊢
        rcases hr : eng.notifyForkchoiceUpdate _ with ⟨pid?, lvh?, err?⟩
        simp only [hr] at h ⊢
        cases err? with
        | some e => simp at h
        | none =>
          cases pid? with
          | none => simp at h
          | some q =>
            simp only at h ⊢
            refine ⟨trivial, trivial, ?_⟩
            simp only [Option.some.injEq] at h
            subst h
            exact cacheGet_cacheSet ..
  · simp only [Bool.not_eq_true] at hen
    simp [hen] at h

/-- C1. Dedup idempotence of the async build request: whenever
`RequestPayloadAsync` succeeds with a non-nil payload ID for a key
(slot, parentBlockRoot), a second `RequestPayloadAsync` for the same key
— with any engine, attributes outcome, or hash arguments — returns the
same payload ID, leaves the cache unchanged, and sends no
forkchoice-update request to the execution peer. -/
theorem requestPayloadAsync_dedup_idempotent (cfg : Builder.Config)
    (eng eng' : Builder.Engine) (cache : Builder.Cache)
    (attrsRes attrsRes' : Except Err PayloadAttributes) (slot : Slot)
    (root : Root) (head final head' final' : ExecutionHash) (pid : PayloadID)
    (h : (Builder.requestPayloadAsync cfg eng cache attrsRes slot root
      head final).payloadID = some pid) :
    Builder.requestPayloadAsync cfg eng'
        (Builder.requestPayloadAsync cfg eng cache attrsRes slot root
          head final).cache attrsRes' slot root head' final' =
      ⟨some pid, none,
        (Builder.requestPayloadAsync cfg eng cache attrsRes slot root
          head final).cache, []⟩ := by
  obtain ⟨hen, -, hget⟩ :=
    requestPayloadAsync_some cfg eng cache attrsRes slot root head final pid h
  generalize (Builder.requestPayloadAsync cfg eng cache attrsRes slot root
    head final).cache = c at hget ⊢
  unfold Builder.requestPayloadAsync
  simp [hen, hget]

/-- Closed witness for `requestPayloadAsync_dedup_idempotent`: a first
build on an empty cache yields payload ID 1, and the repeated call
returns it from the cache with no peer request. -/
theorem requestPayloadAsync_dedup_idempotent_witness :
    Builder.requestPayloadAsync wCfg wEng
        (Builder.requestPayloadAsync wCfg wEng [] (.ok wAttrs) 100 170
          11 12).cache (.ok wAttrs) 100 170 11 12 =
      ⟨some 1, none,
        (Builder.requestPayloadAsync wCfg wEng [] (.ok wAttrs) 100 170
          11 12).cache, []⟩ :=
  requestPayloadAsync_dedup_idempotent wCfg wEng wEng [] (.ok wAttrs)
    (.ok wAttrs) 100 170 11 12 11 12 1 rfl

/-- C10. Every forkchoice-update request that `RequestPayloadAsync` sends
to the execution peer has its head hash equal to the
`headEth1BlockHash` argument and both its safe and finalized hashes equal
to the `finalEth1BlockHash` argument, so the transmitted safe hash always
equals the transmitted finalized hash. -/
theorem requestPayloadAsync_forkchoice_state (cfg : Builder.Config)
    (eng : Builder.Engine) (cache : Builder.Cache)
    (attrsRes : Except Err PayloadAttributes) (slot : Slot) (root : Root)
    (head final : ExecutionHash) (req : ForkchoiceUpdateRequest)
    (h : req ∈ (Builder.requestPayloadAsync cfg eng cache attrsRes slot root
      head final).fcuReqs) :
    req.state.headBlockHash = head ∧
    req.state.safeBlockHash = final ∧
    req.state.finalizedBlockHash = final := by
  unfold Builder.requestPayloadAsync at h
  by_cases hen : cfg.enabled
  · simp only [hen, Bool.not_true, Bool.false_eq_true, if_false, ite_false] at h
    cases hc : Builder.cacheGet cache slot root with
    | some q => simp [hc] at h
    | none =>
      simp only [hc] at h
      cases attrsRes with
      | error e => simp at h
      | ok attrs =>
        simp only at h
        rcases hr : eng.notifyForkchoiceUpdate
            ⟨⟨head, final, final⟩, some attrs,
              cfg.activeForkVersionForSlot slot⟩ with ⟨pid?, lvh?, err?⟩
        simp only [hr] at h
        cases err? with
        | some e =>
          simp only [List.mem_singleton] at h
          subst h; exact ⟨rfl, rfl, rfl⟩
        | none =>
          cases pid? with
          | none =>
            simp only [List.mem_singleton] at h
            subst h; exact ⟨rfl, rfl, rfl⟩
          | some q =>
            simp only [List.mem_singleton] at h
            subst h; exact ⟨rfl, rfl, rfl⟩
  · simp only [Bool.not_eq_true] at hen
    simp [hen] at h

/-- Closed witness for `requestPayloadAsync_forkchoice_state`: the single
request of a fresh build on an empty cache carries head 11 and
safe = finalized = 12. -/
theorem requestPayloadAsync_forkchoice_state_witness :
    wReq ∈ (Builder.requestPayloadAsync wCfg wEng [] (.ok wAttrs)
        100 170 11 12).fcuReqs ∧
      wReq.state.headBlockHash = 11 ∧
      wReq.state.safeBlockHash = 12 ∧
      wReq.state.finalizedBlockHash = 12 := by
  have hm : wReq ∈ (Builder.requestPayloadAsync wCfg wEng [] (.ok wAttrs)
      100 170 11 12).fcuReqs := by decide
  exact ⟨hm, requestPayloadAsync_forkchoice_state wCfg wEng [] (.ok wAttrs)
    100 170 11 12 wReq hm⟩

/-- C2, counterexample. It is not the case that every forkchoice update
issued by `SendForceHeadFCU` sets head, safe, and finalized all to the
header's block hash: for the header with block hash 1 and parent hash 2,
the request sent carries safe hash 2, not 1. -/
theorem sendForceHeadFCU_all_head_cex :
    ¬ ∀ (cfg : Builder.Config) (eng : Builder.Engine)
        (lph : ExecutionPayloadHeader) (slot : Slot),
        ∀ req ∈ (Builder.sendForceHeadFCU cfg eng (.ok lph) slot).2,
          req.state.headBlockHash = lph.blockHash ∧
          req.state.safeBlockHash = lph.blockHash ∧
          req.state.finalizedBlockHash = lph.blockHash ∧
          req.payloadAttributes = none := by
  intro hclaim
  have h := hclaim wCfg wEng ⟨1, 2⟩ 0
    ⟨⟨1, 2, 2⟩, none, Version.deneb⟩ (by decide)
  exact absurd h.2.1 (by decide)

/-- C2, amended. `SendForceHeadFCU`, whenever reading the latest
execution payload header succeeds, issues exactly one forkchoice update,
whose head hash is the header's block hash, whose safe and finalized
hashes are both the header's parent hash, and which carries no payload
attributes. -/
theorem sendForceHeadFCU_request_shape (cfg : Builder.Config)
    (eng : Builder.Engine) (lph : ExecutionPayloadHeader) (slot : Slot) :
    (Builder.sendForceHeadFCU cfg eng (.ok lph) slot).2 =
      [{ state :=
          { headBlockHash := lph.blockHash
            safeBlockHash := lph.parentHash
            finalizedBlockHash := lph.parentHash }
         payloadAttributes := none
         forkVersion := cfg.activeForkVersionForSlot slot }] := rfl

/-- C3, counterexample. It is not the case that every fork version other
than Deneb makes the three version-dispatched operations return their
designated invalid-version errors: at the Electra version,
`callNewPayloadRPC` returns the Electra TODO error instead of
`ErrInvalidPayloadType` (and likewise for the other two operations). -/
theorem dispatch_fails_closed_cex :
    ¬ ∀ (v : Nat), v ≠ Version.deneb →
        ∀ (np : EngineClient.NewPayloadWire)
          (fcu : EngineClient.ForkchoiceWire)
          (gp : EngineClient.GetPayloadWire),
          EngineClient.callNewPayloadRPC v np =
            ((none, some .invalidPayloadType), 0) ∧
          EngineClient.callUpdatedForkchoiceRPC v fcu =
            ((none, some .invalidPayloadAttributes), 0) ∧
          EngineClient.getPayload v gp =
            ((none, some .invalidGetPayloadVersion), 0) := by
  intro hclaim
  have h := hclaim Version.electra (by decide) (none, none) (none, none)
    (none, none)
  exact absurd h.1 (by decide)

/-- C3, amended. For every fork version other than Deneb, each of the
three version-dispatched operations performs no transport call and fails:
with the designated invalid-version error for that operation
(`ErrInvalidPayloadType`, `ErrInvalidPayloadAttributes`,
`ErrInvalidGetPayloadVersion`) for every version other than Electra, and
with that operation's distinct Electra not-implemented (TODO) error at
Electra. -/
theorem dispatch_fails_closed (v : Nat) (hv : v ≠ Version.deneb)
    (np : EngineClient.NewPayloadWire) (fcu : EngineClient.ForkchoiceWire)
    (gp : EngineClient.GetPayloadWire) :
    EngineClient.callNewPayloadRPC v np =
      ((none, some (if v = Version.electra then .todoElectraPayload
        else .invalidPayloadType)), 0) ∧
    EngineClient.callUpdatedForkchoiceRPC v fcu =
      ((none, some (if v = Version.electra then .todoElectraForkchoice
        else .invalidPayloadAttributes)), 0) ∧
    EngineClient.getPayload v gp =
      ((none, some (if v = Version.electra then .todoElectraGetPayload
        else .invalidGetPayloadVersion)), 0) := by
  have hv4 : v ≠ 4 := hv
  by_cases he : v = 5
  · subst he
    exact ⟨rfl, rfl, rfl⟩
  · refine ⟨?_, ?_, ?_⟩ <;>
      simp [EngineClient.callNewPayloadRPC,
        EngineClient.callUpdatedForkchoiceRPC, EngineClient.getPayload,
        hv4, he, Version.deneb, Version.electra]

/-- Closed witness for `dispatch_fails_closed` at the pre-Deneb fork
version 0: all three operations return their designated invalid-version
errors without a transport call. -/
theorem dispatch_fails_closed_witness :
    EngineClient.callNewPayloadRPC 0 (none, none) =
      ((none, some .invalidPayloadType), 0) ∧
    EngineClient.callUpdatedForkchoiceRPC 0 (none, none) =
      ((none, some .invalidPayloadAttributes), 0) ∧
    EngineClient.getPayload 0 (none, none) =
      ((none, some .invalidGetPayloadVersion), 0) := by
  have h := dispatch_fails_closed 0 (by decide) (none, none) (none, none)
    (none, none)
  simpa using h

/-- C4. `GetPayload` at the Deneb fork version (the only version that
reaches the transport): a nil envelope from the transport fails with the
nil-envelope error; a returned envelope with a nil blobs bundle fails
with the nil-blob-bundle error (the code guards this with
`forkVersion >= Deneb`, which holds); and in every other non-error case
the envelope itself is returned. The transport is invoked exactly once in
each case. -/
theorem getPayload_protocol_violations (env : Envelope) :
    EngineClient.getPayload Version.deneb (none, none) =
      ((none, some .nilExecutionPayloadEnvelope), 1) ∧
    EngineClient.getPayload Version.deneb (some env, none) =
      ((some env,
        if env.blobsBundle = none then some .nilBlobsBundle else none), 1) := by
  constructor
  · rfl
  · by_cases hb : env.blobsBundle = none <;>
      simp [EngineClient.getPayload, hb, Version.deneb]

/-- C5. Cancellation precedence in `RequestPayloadSync`: whenever the
async build phase yields a non-nil payload ID and the caller's
cancellation instant lies strictly before the `PayloadTimeout` settle
timer, the synchronous request returns the context-cancellation error,
returns no envelope, and sends no get-payload request to the execution
peer. -/
theorem requestPayloadSync_cancel_precedence (cfg : Builder.Config)
    (eng : Builder.Engine) (cache : Builder.Cache)
    (attrsRes : Except Err PayloadAttributes) (slot : Slot) (root : Root)
    (parentEth1Hash finalBlockHash : ExecutionHash) (pid : PayloadID)
    (t : Nat)
    (hpid : (Builder.requestPayloadAsync cfg eng cache attrsRes slot root
      parentEth1Hash finalBlockHash).payloadID = some pid)
    (ht : t < cfg.payloadTimeout) :
    (Builder.requestPayloadSync cfg eng cache attrsRes slot root
        parentEth1Hash finalBlockHash (some t)).env = none ∧
    (Builder.requestPayloadSync cfg eng cache attrsRes slot root
        parentEth1Hash finalBlockHash (some t)).err = some .ctxCanceled ∧
    (Builder.requestPayloadSync cfg eng cache attrsRes slot root
        parentEth1Hash finalBlockHash (some t)).getpReqs = [] := by
  obtain ⟨hen, herr, -⟩ :=
    requestPayloadAsync_some cfg eng cache attrsRes slot root parentEth1Hash
      finalBlockHash pid hpid
  unfold Builder.requestPayloadSync
  simp only [hen, Bool.not_true, Bool.false_eq_true, if_false, ite_false]
  simp [herr, hpid, ht]

/-- Closed witness for `requestPayloadSync_cancel_precedence`: with the
fixture builder (settle timer 10) and a cancellation at instant 3, the
synchronous request is cancelled without redeeming the payload. -/
theorem requestPayloadSync_cancel_precedence_witness :
    (Builder.requestPayloadSync wCfg wEng [] (.ok wAttrs) 100 170 11 12
        (some 3)).env = none ∧
    (Builder.requestPayloadSync wCfg wEng [] (.ok wAttrs) 100 170 11 12
        (some 3)).err = some .ctxCanceled ∧
    (Builder.requestPayloadSync wCfg wEng [] (.ok wAttrs) 100 170 11 12
        (some 3)).getpReqs = [] :=
  requestPayloadSync_cancel_precedence wCfg wEng [] (.ok wAttrs) 100 170
    11 12 1 3 rfl (by decide)

/-- C6. Disabled-builder precondition: when the builder is
administratively disabled, `RequestPayloadAsync`, `RequestPayloadSync`,
and `RetrievePayload` all return the builder-disabled error immediately,
leave the cache untouched, and send no request of any kind to the
execution peer. -/
theorem builder_disabled_short_circuit (cfg : Builder.Config)
    (eng : Builder.Engine) (cache : Builder.Cache)
    (attrsRes : Except Err PayloadAttributes) (slot : Slot) (root : Root)
    (head final : ExecutionHash) (cancelAt : Option Nat)
    (hd : cfg.enabled = false) :
    Builder.requestPayloadAsync cfg eng cache attrsRes slot root head final =
      ⟨none, some .payloadBuilderDisabled, cache, []⟩ ∧
    Builder.requestPayloadSync cfg eng cache attrsRes slot root head final
        cancelAt =
      ⟨none, some .payloadBuilderDisabled, cache, [], []⟩ ∧
    Builder.retrievePayload cfg eng cache slot root =
      ⟨none, some .payloadBuilderDisabled, cache, [], []⟩ := by
  refine ⟨?_, ?_, ?_⟩ <;>
    simp [Builder.requestPayloadAsync, Builder.requestPayloadSync,
      Builder.retrievePayload, hd]

/-- Closed witness for `builder_disabled_short_circuit` on the disabled
fixture configuration. -/
theorem builder_disabled_short_circuit_witness :
    Builder.requestPayloadAsync wCfgOff wEng [] (.ok wAttrs) 100 170 11 12 =
      ⟨none, some .payloadBuilderDisabled, [], []⟩ ∧
    Builder.requestPayloadSync wCfgOff wEng [] (.ok wAttrs) 100 170 11 12
        none =
      ⟨none, some .payloadBuilderDisabled, [], [], []⟩ ∧
    Builder.retrievePayload wCfgOff wEng [] 100 170 =
      ⟨none, some .payloadBuilderDisabled, [], [], []⟩ :=
  builder_disabled_short_circuit wCfgOff wEng [] (.ok wAttrs) 100 170 11 12
    none rfl

/-- C7. Cache-miss behaviour of payload retrieval: with the builder
enabled, for every key (slot, parentBlockRoot) absent from the cache,
`RetrievePayload` returns the payload-ID-not-found error, returns no
envelope, leaves the cache unchanged, and sends no request to the
execution peer (in particular it never triggers a build). -/
theorem retrievePayload_cache_miss (cfg : Builder.Config)
    (eng : Builder.Engine) (cache : Builder.Cache) (slot : Slot)
    (root : Root) (hen : cfg.enabled = true)
    (hmiss : Builder.cacheGet cache slot root = none) :
    Builder.retrievePayload cfg eng cache slot root =
      ⟨none, some .payloadIDNotFound, cache, [], []⟩ := by
  unfold Builder.retrievePayload
  simp [hen, hmiss]

/-- Closed witness for `retrievePayload_cache_miss` on the empty cache. -/
theorem retrievePayload_cache_miss_witness :
    Builder.retrievePayload wCfg wEng [] 100 170 =
      ⟨none, some .payloadIDNotFound, [], [], []⟩ :=
  retrievePayload_cache_miss wCfg wEng [] 100 170 rfl rfl

/-- C8, counterexample. `Validate` does not enforce "withdrawals present
iff fork version ≥ Capella": a pre-Capella attributes value (version 2)
with a withdrawal list present, non-zero timestamp and non-zero
prev-randao is accepted, not rejected. -/
theorem payloadAttributes_validate_iff_cex :
    ¬ ∀ (p : PayloadAttributes),
        p.Validate = none ↔
          (p.timestamp ≠ 0 ∧ p.prevRandao ≠ 0 ∧
            (p.withdrawals ≠ none ↔ Version.capella ≤ p.version)) := by
  intro hclaim
  exact absurd (hclaim
    { version := 2
      timestamp := 1
      prevRandao := 1
      suggestedFeeRecipient := 7
      withdrawals := some []
      parentBeaconBlockRoot := 2 }) (by decide)

/-- C8, amended. `NewPayloadAttributes` (via `Validate`) returns without
error exactly when the timestamp is non-zero, the prev-randao is not the
zero 32-byte value, and — only in the direction the code checks — the
withdrawal list is present whenever the fork version is at or after
Capella; a pre-Capella value with withdrawals present is accepted. -/
theorem payloadAttributes_validate_iff (forkVersion timestamp : Nat)
    (prevRandao : Bytes32) (suggestedFeeRecipient : ExecutionAddress)
    (withdrawals : Option (List Nat)) (parentBeaconBlockRoot : Root) :
    (∃ p, NewPayloadAttributes forkVersion timestamp prevRandao
        suggestedFeeRecipient withdrawals parentBeaconBlockRoot = .ok p) ↔
      (timestamp ≠ 0 ∧ prevRandao ≠ 0 ∧
        (Version.capella ≤ forkVersion → withdrawals ≠ none)) := by
  unfold NewPayloadAttributes PayloadAttributes.Validate
  by_cases h1 : timestamp = 0
  · simp [h1]
  · by_cases h2 : prevRandao = 0
    · simp [h1, h2]
    · by_cases h3 : withdrawals = none ∧ Version.capella ≤ forkVersion
      · simp [h1, h2, h3]
      · simp only [h1, h2, h3, if_false, ite_false]
        simp only [not_and] at h3
        simp [h1, h2]
        intro hc hw
        exact absurd hc (h3 hw)

/-- C9. Soft-failure responses still carry the hash: a Deneb
`engine_newPayloadVX` response with status Syncing and a non-zero latest
valid hash makes `NewPayload` return that hash together with the syncing
error, both present simultaneously; and a Deneb forkchoice-update
response with the same status makes `ForkchoiceUpdated` return the hash
alongside the classification error. -/
theorem soft_failure_carries_hash (h : ExecutionHash)
    (ve : Option String) (pid : Option PayloadID) (hnz : h ≠ 0) :
    (EngineClient.newPayload Version.deneb
        (some { status := .syncing
                latestValidHash := some h
                validationError := ve }, none)).1 =
      (some h, some .syncingPayloadStatus) ∧
    (EngineClient.forkchoiceUpdated Version.deneb
        (some { payloadStatus := { status := .syncing
                                   latestValidHash := some h
                                   validationError := ve }
                payloadID := pid }, none)).1 =
      (none, some h, some .syncingPayloadStatus) := by
  constructor <;> rfl

/-- Closed witness for `soft_failure_carries_hash` at hash 9. -/
theorem soft_failure_carries_hash_witness :
    (EngineClient.newPayload Version.deneb
        (some { status := .syncing
                latestValidHash := some 9
                validationError := none }, none)).1 =
      (some 9, some .syncingPayloadStatus) ∧
    (EngineClient.forkchoiceUpdated Version.deneb
        (some { payloadStatus := { status := .syncing
                                   latestValidHash := some 9
                                   validationError := none }
                payloadID := none }, none)).1 =
      (none, some 9, some .syncingPayloadStatus) :=
  soft_failure_carries_hash 9 none none (by decide)

end BeaconKit
